import Mathlib

/-!
Verification development for the kitchen-robot agent
(source file: gpt-oss-chat-function-ui.py).

The Python code is shallowly embedded: Python values are modelled by the
mutual inductive type PyVal (strings, ints, bools, None, lists, dicts),
the bot object state by the structure BotState, the tool handlers by
pure functions from state and argument to new state and an outcome
payload, and the tool-call control loop (method _call_gpt_oss) by a
fuel-bounded recursive function over an oracle of model responses.
Wall-clock timestamp fields of the payloads, UI callbacks, logging and
the GUI are not modelled; they carry no control flow that the claims
depend on.  Floating point numerals never occur in the modelled paths,
so the number type of the embedding is Int.
-/

namespace KitchenBot

/- Python runtime values, restricted to the shapes the program builds:
strings, integers (bool is a separate constructor but compares
numerically like Python bool), None, lists and string-keyed dicts.
Mutual inductives are used (instead of nesting List) so that all
recursion below is structural and kernel-reducible. -/
mutual
inductive PyVal where
  | pstr : String → PyVal
  | pint : Int → PyVal
  | pbool : Bool → PyVal
  | pnone : PyVal
  | plist : PyList → PyVal
  | pdict : PyDict → PyVal
inductive PyList where
  | nil : PyList
  | cons : PyVal → PyList → PyList
inductive PyDict where
  | nil : PyDict
  | dcons : String → PyVal → PyDict → PyDict
end

deriving instance DecidableEq for PyVal
deriving instance DecidableEq for PyList
deriving instance DecidableEq for PyDict

mutual
def PyList.toList : PyList → List PyVal
  | .nil => []
  | .cons v rest => v :: PyList.toList rest
def PyDict.toList : PyDict → List (String × PyVal)
  | .nil => []
  | .dcons k v rest => (k, v) :: PyDict.toList rest
end

def PyList.ofList : List PyVal → PyList
  | [] => .nil
  | v :: rest => .cons v (PyList.ofList rest)

def PyDict.ofList : List (String × PyVal) → PyDict
  | [] => .nil
  | (k, v) :: rest => .dcons k v (PyDict.ofList rest)

/-- Python truthiness (bool(x)): empty string, 0, False, None, empty
list and empty dict are falsy, everything else is truthy. -/
def truthy : PyVal → Bool
  | .pstr s => !s.data.isEmpty
  | .pint n => !(n == 0)
  | .pbool b => b
  | .pnone => false
  | .plist l => (match l with | .nil => false | _ => true)
  | .pdict d => (match d with | .nil => false | _ => true)

/- Python repr(), as far as the program can observe it: str uses single
quotes (escaping inside the text is not modelled, no modelled input
needs it), ints and bools and None print the Python way, lists in
brackets and dicts in braces with ", " separators. -/
mutual
def pyRepr : PyVal → String
  | .pstr s => "\x27" ++ s ++ "\x27"
  | .pint n => toString n
  | .pbool b => if b then "True" else "False"
  | .pnone => "None"
  | .plist xs => "[" ++ pyReprList xs ++ "]"
  | .pdict kvs => "\x7b" ++ pyReprDict kvs ++ "\x7d"
def pyReprList : PyList → String
  | .nil => ""
  | .cons v .nil => pyRepr v
  | .cons v rest => pyRepr v ++ ", " ++ pyReprList rest
def pyReprDict : PyDict → String
  | .nil => ""
  | .dcons k v .nil => "\x27" ++ k ++ "\x27: " ++ pyRepr v
  | .dcons k v rest => "\x27" ++ k ++ "\x27: " ++ pyRepr v ++ ", " ++ pyReprDict rest
end

/-- Python str(): identity on strings, repr on everything else. -/
def pyStr : PyVal → String
  | .pstr s => s
  | v => pyRepr v

/-- Python dict lookup on an association list (keys are unique in every
dict the program builds, so first-match lookup is dict lookup). -/
def dictGet (d : List (String × PyVal)) (k : String) : Option PyVal :=
  match d with
  | [] => none
  | (k2, v) :: rest => if k2 == k then some v else dictGet rest k

/-- Python d.get(k) with default None. -/
def pyGet (d : List (String × PyVal)) (k : String) : PyVal :=
  (dictGet d k).getD .pnone

/-- Replace the value at an existing key, keeping its position. -/
def dictReplace (d : List (String × PyVal)) (k : String) (v : PyVal) :
    List (String × PyVal) :=
  match d with
  | [] => []
  | (k1, v1) :: rest =>
    if k1 == k then (k, v) :: dictReplace rest k v
    else (k1, v1) :: dictReplace rest k v

/-- Setting one key of a Python dict: an existing key is overwritten in
place, a new key is appended (Python dicts preserve insertion order). -/
def dictSet (d : List (String × PyVal)) (k : String) (v : PyVal) :
    List (String × PyVal) :=
  if d.any (fun kv => kv.1 == k) then dictReplace d k v
  else d ++ [(k, v)]

/-- Python dict.update(upd): fold dictSet over the entries of upd. -/
def dictUpdate (d upd : List (String × PyVal)) : List (String × PyVal) :=
  upd.foldl (fun acc kv => dictSet acc kv.1 kv.2) d

/-- Python numeric coercion used by ==: True and False equal 1 and 0. -/
def toNumQ : PyVal → Option Int
  | .pint n => some n
  | .pbool b => some (if b then 1 else 0)
  | _ => none

/-- Python == between values: numeric values (int and bool) compare by
value, everything else structurally (only the int-to-anything case is
exercised by the modelled code, for task ids). -/
def pyEq (a b : PyVal) : Bool :=
  match toNumQ a, toNumQ b with
  | some m, some n => m == n
  | some _, none => false
  | none, some _ => false
  | none, none => a == b

/-- Character-list lexicographic order by code point, as Python string
comparison does. -/
def strLtChars : List Char → List Char → Bool
  | [], [] => false
  | [], _ :: _ => true
  | _ :: _, [] => false
  | a :: as, b :: bs =>
    if a.toNat < b.toNat then true
    else if a.toNat == b.toNat then strLtChars as bs else false

def strLtB (a b : String) : Bool := strLtChars a.data b.data

def insertStr (s : String) : List String → List String
  | [] => [s]
  | t :: ts => if strLtB s t then s :: t :: ts else t :: insertStr s ts

/-- Python sorted() on a list of strings (insertion sort; the inputs
here are duplicate-free so this matches Python exactly). -/
def pySorted : List String → List String
  | [] => []
  | s :: ss => insertStr s (pySorted ss)

def isSortedAsc : List String → Bool
  | [] => true
  | [_] => true
  | a :: b :: rest => strLtB a b && isSortedAsc (b :: rest)

/-- Python s.startswith(p), here used to state that an error message
begins with a given text. -/
def strBeginsWith (p s : String) : Bool := p.data.isPrefixOf s.data

def isWsChar (c : Char) : Bool :=
  ([' ', '\t', '\n', '\r'] : List Char).contains c

def dropWsLeft (cs : List Char) : List Char := cs.dropWhile isWsChar

/-- Python s.strip(): remove leading and trailing whitespace. -/
def pyStrip (s : String) : String :=
  String.mk (List.reverse (dropWsLeft (List.reverse (dropWsLeft s.data))))

/-- Python s.find(c): index of the first occurrence, if any. -/
def findIdxChar (c : Char) : List Char → Option Nat
  | [] => none
  | a :: as =>
    if a == c then some 0 else (findIdxChar c as).map (fun i => i + 1)

/-- Python s.rfind(c): index of the last occurrence, if any. -/
def rfindIdxChar (c : Char) : List Char → Option Nat
  | [] => none
  | a :: as =>
    match rfindIdxChar c as with
    | some i => some (i + 1)
    | none => if a == c then some 0 else none

/-- One task of the plan checklist: source shape
dict(id = i, title = t, done = b), with id assigned 1-based.  The title
is whatever Python value the extraction produced (the source does not
force it to be a string). -/
structure PlanTask where
  id : Nat
  title : PyVal
  done : Bool
deriving DecidableEq

/-- The canonical robot commands (module constant CANONICAL_COMMANDS),
in source order. -/
def canonicalCommands : List String :=
  [ "Open the left cabinet door",
    "Close the left cabinet door",
    "Take off the lid from the gray recipient and place it on the counter",
    "Pick up the lid from the counter and put it on the gray recipient",
    "Pick up the green pineapple from the left cabinet and place it in the gray recipient",
    "Put salt in the gray recipient" ]

/-- sorted(list(CANONICAL_COMMANDS)), as built for the error payload of
execute_robot_command. -/
def sortedCanonical : List String := pySorted canonicalCommands

/-- The mutable state of the GPTOSSChatBot object that the modelled
methods read and write (conversation history is carried separately by
the loop state). -/
structure BotState where
  task_list : List PlanTask
  plan_approved : Bool
  kitchen_state : List (String × PyVal)
  current_task : Option PyVal
deriving DecidableEq

/-- The initial state set up by GPTOSSChatBot.__init__. -/
def initBot : BotState :=
  { task_list := []
    plan_approved := false
    current_task := none
    kitchen_state :=
      [ ("cabinet_open", .pbool false),
        ("lid_on_gray_recipient", .pbool true),
        ("pineapple_in_gray_recipient", .pbool false),
        ("salt_added", .pbool false) ] }

/-- Flattened outcome envelope covering the payload dicts the handlers
return; absent fields are none.  The timestamp field of the source
payloads (wall clock) is not modelled. -/
structure Outcome where
  status : String
  error : Option String := none
  instruction : Option PyVal := none
  allowed : Option (List String) := none
  result : Option (Option String) := none
  updated_state : Option (List (String × PyVal)) := none
  updated_tasks : Option (List PlanTask) := none
  created_plan : Option (List PlanTask) := none
  current_plan : Option (List PlanTask) := none
  kitchen_state : Option (List (String × PyVal)) := none
  approved : Option Bool := none
  reasons : Option (List PyVal) := none
  applied_revision : Option Bool := none
  raw : Option String := none
deriving DecidableEq

/-- Result of the send() collaborator call: ok response text (None in
dry-run mode) or a raised exception message.  When ROBOT_SEND_ENABLED
is set, reaching send() opens the actuator socket. -/
abbrev SendRes := Except String (Option String)

/-- Method execute_robot_command (lines 191-247): sets current_task,
rejects any instruction that is not byte-identical to a canonical
command before reaching send(), otherwise forwards to send() and wraps
the response or the raised fault.  The third component records whether
send() was invoked for this call. -/
def execute_robot_command (sendRes : SendRes) (st : BotState)
    (instr : PyVal) : BotState × Outcome × Bool :=
  let st := { st with current_task := some instr }
  let isCanonical :=
    match instr with
    | .pstr s => canonicalCommands.contains s
    | _ => false
  if isCanonical then
    match sendRes with
    | .ok r =>
      (st, { status := "success", result := some r, instruction := some instr },
        true)
    | .error e =>
      (st, { status := "error", error := some e, instruction := some instr },
        true)
  else
    (st,
      { status := "error"
        error := some "Non-canonical command. Use an exact phrase from the canonical list."
        instruction := some instr
        allowed := some sortedCanonical },
      false)

/-- Method update_kitchen_state (lines 249-270): None and non-dict
arguments are rejected with status error and the state is untouched;
a dict argument is merged into kitchen_state by dict.update and the
full resulting map is returned. -/
def update_kitchen_state (st : BotState) (v : PyVal) : BotState × Outcome :=
  match v with
  | .pnone =>
    (st, { status := "error",
           error := some "Missing required field: state_updates (object)" })
  | .pdict d =>
    let ks := dictUpdate st.kitchen_state d.toList
    ({ st with kitchen_state := ks },
      { status := "success", updated_state := some ks })
  | _ =>
    (st, { status := "error", error := some "state_updates must be an object" })

/-- The for-loop of mark_task_complete: set the done flag of the first
task whose id compares Python-equal to the argument, then break. -/
def markFirst (l : List PlanTask) (tid : PyVal) : List PlanTask :=
  match l with
  | [] => []
  | t :: ts =>
    if pyEq (.pint (t.id : Int)) tid then { t with done := true } :: ts
    else t :: markFirst ts tid

/-- Method mark_task_complete (lines 272-288): always returns status
success with the (possibly unchanged) task list; an absent id is a
no-op, not an error. -/
def mark_task_complete (st : BotState) (tid : PyVal) : BotState × Outcome :=
  let l := markFirst st.task_list tid
  ({ st with task_list := l },
    { status := "success", updated_tasks := some l })

/-- Method get_current_plan (lines 290-297). -/
def get_current_plan (st : BotState) : Outcome :=
  { status := "success", current_plan := some st.task_list,
    kitchen_state := some st.kitchen_state }

/-- Python or-chain over the candidate title fields of create_plan
(line 312-321): value of the first truthy field, else the value of the
last get (which is None when the key is absent). -/
def por (a b : PyVal) : PyVal := if truthy a then a else b

def titleChain (kvs : List (String × PyVal)) : PyVal :=
  por (pyGet kvs "title")
    (por (pyGet kvs "description")
      (por (pyGet kvs "command")
        (por (pyGet kvs "action")
          (por (pyGet kvs "name")
            (por (pyGet kvs "step")
              (por (pyGet kvs "instruction") (pyGet kvs "task")))))))

/-- Python isinstance(v, (str, int, float)); bool is a subclass of int.
Float literals never occur in the modelled inputs. -/
def isScalar : PyVal → Bool
  | .pstr _ => true
  | .pint _ => true
  | .pbool _ => true
  | _ => false

/-- Title extraction of create_plan (lines 309-339): for a dict, the
or-chain over the candidate fields, then the single-key scalar rule
(str of the only value), then str(task); a non-dict entry is
stringified directly. -/
def extractTitle (task : PyVal) : PyVal :=
  match task with
  | .pdict d =>
    let kvs := d.toList
    let d1 := titleChain kvs
    let d2 :=
      if d1 == .pnone && kvs.length == 1 then
        match kvs with
        | [(_, v)] => if isScalar v then .pstr (pyStr v) else d1
        | _ => d1
      else d1
    if d2 == .pnone then .pstr (pyRepr task) else d2
  | t => .pstr (pyStr t)

/-- The formatted_tasks accumulation of create_plan: sequential ids
starting at i+1 in input order, done reset to false. -/
def formatTasks : Nat → List PyVal → List PlanTask
  | _, [] => []
  | i, t :: rest =>
    { id := i + 1, title := extractTitle t, done := false } ::
      formatTasks (i + 1) rest

/-- Method create_plan (lines 299-356): plan_approved is cleared first,
then a non-list argument raises ValueError (caught, status error), and
a list argument replaces the entire task list by the formatted tasks. -/
def create_plan (st : BotState) (tasks : PyVal) : BotState × Outcome :=
  let st := { st with plan_approved := false }
  match tasks with
  | .plist ts =>
    let formatted := formatTasks 0 ts.toList
    ({ st with task_list := formatted },
      { status := "success", created_plan := some formatted })
  | _ =>
    (st, { status := "error", error := some "tasks must be a list" })

/-- String-body scanner of the JSON reader, entered after an opening
double quote; the common escapes are supported (the uncommon ones and
unicode escapes never occur in the modelled inputs and make the parse
fail, as a conservative under-approximation of json.loads). -/
def unescapeChar : Char → Option Char
  | 'n' => some '\n'
  | 'r' => some '\r'
  | 't' => some '\t'
  | '"' => some '"'
  | '/' => some '/'
  | '\\' => some '\\'
  | _ => none

def parseStrChars : List Char → Option (List Char × List Char)
  | [] => none
  | '"' :: rest => some ([], rest)
  | '\\' :: rest =>
    match rest with
    | [] => none
    | e :: rest2 =>
      match unescapeChar e with
      | some c => (parseStrChars rest2).map (fun p => (c :: p.1, p.2))
      | none => none
  | c :: rest => (parseStrChars rest).map (fun p => (c :: p.1, p.2))

def takeDigits (cs : List Char) : List Char × List Char :=
  cs.span (fun c => c.isDigit)

def digitsToNat : Nat → List Char → Nat
  | acc, [] => acc
  | acc, c :: cs => digitsToNat (acc * 10 + (c.toNat - 48)) cs

/-- Number token of the JSON reader.  Only integer numerals are
modelled; a fractional or exponent part makes the parse fail (no
modelled input contains a float). -/
def parseNumTok (cs : List Char) : Option (PyVal × List Char) :=
  let core : List Char → Option (Nat × List Char) := fun l =>
    match takeDigits l with
    | ([], _) => none
    | (ds, rest) =>
      let floatish :=
        match rest with
        | c :: _ => c == '.' || c == 'e' || c == 'E'
        | [] => false
      if floatish then none else some (digitsToNat 0 ds, rest)
  match cs with
  | '-' :: rest => (core rest).map (fun p => (.pint (-(p.1 : Int)), p.2))
  | _ => (core cs).map (fun p => (.pint (p.1 : Int), p.2))

def skipWs (cs : List Char) : List Char := cs.dropWhile isWsChar

/- Recursive-descent JSON reader modelling json.loads, fuel-bounded so
that all recursion is structural; the fuel passed at top level (input
length plus one) always suffices because every value and every list
element consumes at least one character. -/
mutual
def parseVal : Nat → List Char → Option (PyVal × List Char)
  | 0, _ => none
  | f + 1, cs =>
    match skipWs cs with
    | 'n' :: 'u' :: 'l' :: 'l' :: rest => some (.pnone, rest)
    | 't' :: 'r' :: 'u' :: 'e' :: rest => some (.pbool true, rest)
    | 'f' :: 'a' :: 'l' :: 's' :: 'e' :: rest => some (.pbool false, rest)
    | '"' :: rest =>
      (parseStrChars rest).map (fun p => (.pstr (String.mk p.1), p.2))
    | '[' :: rest =>
      (match skipWs rest with
       | ']' :: r2 => some (.plist .nil, r2)
       | r2 => (parseItems f r2).map (fun p => (.plist p.1, p.2)))
    | '\x7b' :: rest =>
      (match skipWs rest with
       | '\x7d' :: r2 => some (.pdict .nil, r2)
       | r2 => (parsePairs f r2).map (fun p => (.pdict p.1, p.2)))
    | rest => parseNumTok rest
def parseItems : Nat → List Char → Option (PyList × List Char)
  | 0, _ => none
  | f + 1, cs =>
    (parseVal f cs).bind (fun p =>
      match skipWs p.2 with
      | ',' :: r2 => (parseItems f r2).map (fun q => (.cons p.1 q.1, q.2))
      | ']' :: r2 => some (.cons p.1 .nil, r2)
      | _ => none)
def parsePairs : Nat → List Char → Option (PyDict × List Char)
  | 0, _ => none
  | f + 1, cs =>
    match skipWs cs with
    | '"' :: rest =>
      (parseStrChars rest).bind (fun kp =>
        match skipWs kp.2 with
        | ':' :: r2 =>
          (parseVal f r2).bind (fun vp =>
            match skipWs vp.2 with
            | ',' :: r3 =>
              (parsePairs f r3).map
                (fun q => (.dcons (String.mk kp.1) vp.1 q.1, q.2))
            | '\x7d' :: r3 => some (.dcons (String.mk kp.1) vp.1 .nil, r3)
            | _ => none)
        | _ => none)
    | _ => none
end

/-- json.loads on a whole string: one value, then only whitespace may
remain. -/
def jsonLoads (s : String) : Option PyVal :=
  match parseVal (s.data.length + 1) s.data with
  | some (v, rest) => if skipWs rest == [] then some v else none
  | none => none

/-- The fallback extraction of review_plan (lines 404-407): the
substring from the first opening brace to the last closing brace, kept
only when the latter is strictly to the right (start != -1, end != -1,
end greater than start). -/
def pyFallbackSlice (s : String) : Option String :=
  match findIdxChar '\x7b' s.data, rfindIdxChar '\x7d' s.data with
  | some i, some j =>
    if i < j then some (String.mk ((s.data.drop i).take (j - i + 1)))
    else none
  | _, _ => none

def scanBalanced : List Char → Nat → List Char → Option (List Char)
  | [], _, _ => none
  | c :: cs, depth, acc =>
    if c == '\x7b' then scanBalanced cs (depth + 1) (acc ++ [c])
    else if c == '\x7d' then
      (if depth == 1 then some (acc ++ [c])
       else scanBalanced cs (depth - 1) (acc ++ [c]))
    else scanBalanced cs depth (acc ++ [c])

def dropToBrace : List Char → Option (List Char)
  | [] => none
  | c :: cs => if c == '\x7b' then some cs else dropToBrace cs

/-- Modelled from the spec: the first balanced brace-to-brace substring
of the content, the fallback that section 4.5 of the spec describes
(the source instead slices from the first opening brace to the last
closing brace; this definition exists only to compare the two). -/
def specFirstBalanced (s : String) : Option String :=
  (dropToBrace s.data).bind
    (fun rest => (scanBalanced rest 1 ['\x7b']).map String.mk)

/-- Parse phase of review_plan (lines 399-412): direct json.loads of
the content, then the brace-slice fallback; when both fail the raw
content is surfaced. -/
def reviewParseContent (content : String) : Except String PyVal :=
  match jsonLoads content with
  | some v => .ok v
  | none =>
    match pyFallbackSlice content with
    | some sub =>
      match jsonLoads sub with
      | some v => .ok v
      | none => .error content
    | none => .error content

/-- Title extraction of the revision application in review_plan (lines
431-449); the source duplicates the create_plan chain verbatim. -/
def reviewTitle (step : PyVal) : PyVal :=
  match step with
  | .pdict d =>
    let kvs := d.toList
    let t1 := titleChain kvs
    let t2 :=
      if t1 == .pnone && kvs.length == 1 then
        match kvs with
        | [(_, v)] => if isScalar v then .pstr (pyStr v) else t1
        | _ => t1
      else t1
    if t2 == .pnone then .pstr (pyRepr step) else t2
  | t => .pstr (pyStr t)

/-- The formatted revision list of review_plan (line 450). -/
def formatRevised : Nat → List PyVal → List PlanTask
  | _, [] => []
  | i, s :: rest =>
    { id := i + 1, title := reviewTitle s, done := false } ::
      formatRevised (i + 1) rest

/-- Message roles of the conversation history. -/
inductive Role where
  | user
  | assistant
  | system
  | tool
deriving DecidableEq

/-- One tool invocation as declared inside an assistant message.  The
source reads only function.name and function.arguments; an id key is
whatever the model chose to send (the source never writes one). -/
structure ToolCall where
  id : Option String := none
  name : String
  args : PyVal
deriving DecidableEq

/-- One entry of conversation_history. -/
structure Msg where
  role : Role
  content : String
  tool_calls : List ToolCall := []
  tool_call_id : Option String := none
  name : Option String := none
deriving DecidableEq

/-- Rendering of the numbered plan lines of the approval message
(line 469), one line per task, starting the display index at 1. -/
def planLines : Nat → List PlanTask → String
  | _, [] => ""
  | i, [t] => toString (i + 1) ++ ". " ++ pyStr t.title
  | i, t :: ts =>
    toString (i + 1) ++ ". " ++ pyStr t.title ++ "\n" ++ planLines (i + 1) ts

/-- The messages review_plan appends after an approving verdict with a
non-empty task list (lines 468-488): the plan message and the system
message that triggers execution. -/
def approvalMsgs (approved : Bool) (tasks : List PlanTask) : List Msg :=
  if approved && !tasks.isEmpty then
    [ { role := .assistant
        content := "Here\x27s my plan:\n" ++ planLines 0 tasks ++
          "\n\nI\x27ll execute it now." },
      { role := .system
        content := "Begin executing the plan now. Call execute_robot_command for the first task." } ]
  else []

/-- Verdict interpretation and application of review_plan (lines
414-499), given the parsed result object: coerce approved with bool(),
reasons to a list else empty, revised_plan to a list else None; apply
the revision only when it is truthy (non-empty) and approved is false;
record the approval flag; when approved with a non-empty task list,
append the plan message and the execution system message to the
conversation.  Returns the new bot state, the outcome payload and the
messages to append. -/
def applyVerdict (st : BotState) (kvs : List (String × PyVal)) :
    BotState × Outcome × List Msg :=
  let approved := truthy (pyGet kvs "approved")
  let reasons : List PyVal :=
    match pyGet kvs "reasons" with
    | .plist l => l.toList
    | _ => []
  let revised : Option (List PyVal) :=
    match pyGet kvs "revised_plan" with
    | .plist l => some l.toList
    | _ => none
  let applies :=
    (match revised with | some (_ :: _) => true | _ => false) && !approved
  let st1 :=
    if applies then { st with task_list := formatRevised 0 (revised.getD []) }
    else st
  let st2 := { st1 with plan_approved := approved }
  (st2,
    { status := "success", approved := some approved, reasons := some reasons,
      applied_revision := some applies },
    approvalMsgs approved st2.task_list)

/-- Body of review_plan after a 200 response, starting from the
stripped content text: parse, then interpret; a parse failure returns
status error carrying the raw text and leaves the state untouched; a
parsed non-object makes result.get raise, caught by the outer handler
(also before any mutation). -/
def review_plan_content (st : BotState) (content : String) :
    BotState × Outcome × List Msg :=
  match reviewParseContent content with
  | .error raw =>
    (st, { status := "error", error := some "Invalid validator reply",
           raw := some raw }, [])
  | .ok (.pdict d) => applyVerdict st d.toList
  | .ok _ =>
    (st, { status := "error",
           error := some "AttributeError: verdict is not an object" }, [])

/-- One HTTP exchange with the model service, already unwrapped by
_parse_gpt_response: the status code, the message content text, and the
declared tool calls.  A review request reads only the content. -/
structure Resp where
  status : Nat
  content : String
  tool_calls : List ToolCall := []

/-- Observable collaborator events of a run, in order: send records an
invocation of send() for an instruction (the actuator socket call when
ROBOT_SEND_ENABLED), review records a completed Review Gate call. -/
inductive Event where
  | send : PyVal → Event
  | review : Event
deriving DecidableEq

/-- State threaded through _call_gpt_oss: the bot object state, the
conversation history, how many HTTP requests were issued (indexing the
oracle), and the collaborator event trace. -/
structure LoopState where
  bot : BotState
  history : List Msg
  reqCount : Nat
  trace : List Event

/-- Result of a run of _call_gpt_oss: final state, returned text, and
the number of loop iterations that executed. -/
structure RunResult where
  final : LoopState
  answer : String
  steps : Nat

/-- Stand-in for json.dumps(result_payload) when a tool result is
recorded in the history; abbreviated to the status field since no
modelled behavior reads tool-result content back. -/
def serializeOutcome (o : Outcome) : String :=
  "\x7b\"status\": \"" ++ o.status ++ "\"\x7d"

/-- Stand-in for the fixed system prompt installed by __init__ (its
text is never branched on by the modelled code). -/
def systemPromptText : String :=
  "You are a fully autonomous kitchen assistant. (full prompt text of _get_system_prompt)"

/-- Argument decoding of the dispatcher (lines 702-706): a string
argument payload is json-decoded when possible and passed through
unchanged otherwise. -/
def decodeArgs (a : PyVal) : PyVal :=
  match a with
  | .pstr s =>
    match jsonLoads s with
    | some v => v
    | none => .pstr s
  | v => v

/-- Keys of the available_functions registry (lines 76-83). -/
def availableFunctions : List String :=
  [ "execute_robot_command", "update_kitchen_state", "mark_task_complete",
    "get_current_plan", "create_plan", "review_plan" ]

/-- Keyword-argument binding check for a handler call f(**args): every
supplied key must be a parameter and every required parameter must be
supplied; a failure raises TypeError, caught by the dispatcher. -/
def kwargsOk (kvs : List (String × PyVal)) (required optionalKs : List String) :
    Bool :=
  kvs.all (fun kv => required.contains kv.1 || optionalKs.contains kv.1) &&
    required.all (fun k => kvs.any (fun kv => kv.1 == k))

def typeErrOutcome : Outcome :=
  { status := "error", error := some "TypeError: invalid tool arguments" }

/-- Method review_plan as invoked at runtime (lines 358-502): one HTTP
request to the validator; a non-200 status is an error outcome; a 200
response has its content stripped and handed to the parse-and-apply
body; the approval messages it produces are appended to the history.
A completed call, successful or not, is recorded as a review event. -/
def review_plan_call (oracle : Nat → Resp) (ls : LoopState) :
    LoopState × Outcome :=
  let resp := oracle ls.reqCount
  let ls := { ls with reqCount := ls.reqCount + 1 }
  if resp.status == 200 then
    let r := review_plan_content ls.bot (pyStrip resp.content)
    ({ ls with
        bot := r.1
        history := ls.history ++ r.2.2
        trace := ls.trace ++ [Event.review] }, r.2.1)
  else
    ({ ls with trace := ls.trace ++ [Event.review] },
      { status := "error",
        error := some ("HTTP " ++ toString resp.status ++ ": " ++ resp.content) })

/-- Invocation of one registered handler with decoded arguments,
modelling f(**args): a non-dict argument payload or a keyword mismatch
is the caught TypeError path. -/
def callHandler (oracle : Nat → Resp) (sendRes : SendRes) (ls : LoopState)
    (fname : String) (args : PyVal) : LoopState × Outcome :=
  if fname == "review_plan" then
    match args with
    | .pdict d =>
      if kwargsOk d.toList [] ["instructions"] then review_plan_call oracle ls
      else (ls, typeErrOutcome)
    | _ => (ls, typeErrOutcome)
  else
    match args with
    | .pdict d =>
      let kvs := d.toList
      if fname == "execute_robot_command" then
        if kwargsOk kvs ["language_instruction"] ["use_angle_stop"] then
          let instr := pyGet kvs "language_instruction"
          let r := execute_robot_command sendRes ls.bot instr
          ({ ls with
              bot := r.1
              trace :=
                if r.2.2 then ls.trace ++ [Event.send instr] else ls.trace },
            r.2.1)
        else (ls, typeErrOutcome)
      else if fname == "update_kitchen_state" then
        if kwargsOk kvs [] ["state_updates"] then
          let r := update_kitchen_state ls.bot (pyGet kvs "state_updates")
          ({ ls with bot := r.1 }, r.2)
        else (ls, typeErrOutcome)
      else if fname == "mark_task_complete" then
        if kwargsOk kvs ["task_id"] [] then
          let r := mark_task_complete ls.bot (pyGet kvs "task_id")
          ({ ls with bot := r.1 }, r.2)
        else (ls, typeErrOutcome)
      else if fname == "get_current_plan" then
        if kwargsOk kvs [] [] then (ls, get_current_plan ls.bot)
        else (ls, typeErrOutcome)
      else if fname == "create_plan" then
        if kwargsOk kvs ["tasks"] [] then
          let r := create_plan ls.bot (pyGet kvs "tasks")
          ({ ls with bot := r.1 }, r.2)
        else (ls, typeErrOutcome)
      else (ls, typeErrOutcome)
    | _ => (ls, typeErrOutcome)

/-- The synthetic records the execution guard appends (lines 718-728):
an assistant message declaring a review_plan call (no id field) and a
tool message with the fixed id call_review_autoguard. -/
def guardSyntheticMsgs (reviewOut : Outcome) : List Msg :=
  [ { role := .assistant, content := "",
      tool_calls := [{ id := none, name := "review_plan", args := .pdict .nil }] },
    { role := .tool, content := serializeOutcome reviewOut,
      tool_call_id := some "call_review_autoguard", name := some "review_plan" } ]

/-- The per-call dispatch loop of the primary branch (lines 691-749):
unknown names report an error; for known names the arguments are
decoded; an execute_robot_command call with the plan-approved flag
clear triggers the guard, which runs review_plan, appends the synthetic
records, contributes the review outcome as this call's result and skips
the robot command for this iteration; otherwise the handler runs.
Exactly one outcome is accumulated per call. -/
def processCalls (oracle : Nat → Resp) (sendRes : SendRes) :
    LoopState → List ToolCall → LoopState × List Outcome
  | ls, [] => (ls, [])
  | ls, tc :: rest =>
    let step :=
      if availableFunctions.contains tc.name then
        let args := decodeArgs tc.args
        if tc.name == "execute_robot_command" && !ls.bot.plan_approved then
          let r := review_plan_call oracle ls
          ({ r.1 with history := r.1.history ++ guardSyntheticMsgs r.2 }, r.2)
        else callHandler oracle sendRes ls tc.name args
      else
        (ls, { status := "error", error := some ("Unknown function: " ++ tc.name) })
    let rest2 := processCalls oracle sendRes step.1 rest
    (rest2.1, step.2 :: rest2.2)

/-- The per-call dispatch loop of the fallback branch (lines 787-817):
textually duplicated from the primary branch in the source, except that
it contains no execution guard. -/
def processCallsFallback (oracle : Nat → Resp) (sendRes : SendRes) :
    LoopState → List ToolCall → LoopState × List Outcome
  | ls, [] => (ls, [])
  | ls, tc :: rest =>
    let step :=
      if availableFunctions.contains tc.name then
        callHandler oracle sendRes ls tc.name (decodeArgs tc.args)
      else
        (ls, { status := "error", error := some ("Unknown function: " ++ tc.name) })
    let rest2 := processCallsFallback oracle sendRes step.1 rest
    (rest2.1, step.2 :: rest2.2)

/-- The tool-result records of a batch (lines 756-762 and 824-830):
zip of declared calls and outcomes, with tool_call_id synthesized
positionally as call_i. -/
def toolMsgs : Nat → List ToolCall → List Outcome → List Msg
  | _, [], _ => []
  | _, _ :: _, [] => []
  | i, tc :: tcs, o :: os =>
    { role := .tool, content := serializeOutcome o,
      tool_call_id := some ("call_" ++ toString i), name := some tc.name } ::
      toolMsgs (i + 1) tcs os

def maxStepsMsg : String :=
  "I executed many steps but reached the maximum step limit. If there\x27s more to do, please continue."

def fallbackMsg : String :=
  "I didn\x27t understand that. Can you try again?"

/-- The while-loop of _call_gpt_oss (lines 635-864), fuel-bounded by
the remaining iterations: each iteration issues one model request; a
non-200 status returns an HTTP error text; tool calls are dispatched,
the assistant message and its tool results appended, and the loop
continues; bare text is appended and returned; an empty response
triggers the single fallback request, whose empty or failed result
returns the fixed fallback string; exhausted fuel returns the
maximum-steps message. -/
def loopStep (oracle : Nat → Resp) (sendRes : SendRes) :
    Nat → LoopState → RunResult
  | 0, ls => { final := ls, answer := maxStepsMsg, steps := 0 }
  | fuel + 1, ls =>
    let resp := oracle ls.reqCount
    let ls := { ls with reqCount := ls.reqCount + 1 }
    if resp.status == 200 then
      match resp.tool_calls with
      | tc :: tcs =>
        let pr := processCalls oracle sendRes ls (tc :: tcs)
        let batch : List Msg :=
          { role := .assistant, content := resp.content,
            tool_calls := tc :: tcs } :: toolMsgs 0 (tc :: tcs) pr.2
        let r := loopStep oracle sendRes fuel
          { pr.1 with history := pr.1.history ++ batch }
        { r with steps := r.steps + 1 }
      | [] =>
        if resp.content == "" then
          let resp2 := oracle ls.reqCount
          let ls := { ls with reqCount := ls.reqCount + 1 }
          if resp2.status == 200 then
            match resp2.tool_calls with
            | tc :: tcs =>
              let pr := processCallsFallback oracle sendRes ls (tc :: tcs)
              let batch : List Msg :=
                { role := .assistant, content := resp2.content,
                  tool_calls := tc :: tcs } :: toolMsgs 0 (tc :: tcs) pr.2
              let r := loopStep oracle sendRes fuel
                { pr.1 with history := pr.1.history ++ batch }
              { r with steps := r.steps + 1 }
            | [] =>
              if resp2.content == "" then
                { final := ls, answer := fallbackMsg, steps := 1 }
              else
                { final := { ls with history := ls.history ++
                    [{ role := .assistant, content := resp2.content }] },
                  answer := resp2.content, steps := 1 }
          else { final := ls, answer := fallbackMsg, steps := 1 }
        else
          { final := { ls with history := ls.history ++
              [{ role := .assistant, content := resp.content }] },
            answer := resp.content, steps := 1 }
    else
      { final := ls,
        answer := "HTTP Error " ++ toString resp.status ++ ": " ++
          String.mk (resp.content.data.take 200),
        steps := 1 }

/-- State at entry of _call_gpt_oss for a fresh bot after chat()
appended the user message (lines 504-526). -/
def initLoop (userMsg : String) : LoopState :=
  { bot := { initBot with current_task := some (.pstr userMsg) }
    history :=
      [ { role := .system, content := systemPromptText },
        { role := .user, content := userMsg } ]
    reqCount := 0
    trace := [] }

/-- A full run of chat: the control loop with max_steps = 50. -/
def runLoop (oracle : Nat → Resp) (sendRes : SendRes) (userMsg : String) :
    RunResult :=
  loopStep oracle sendRes 50 (initLoop userMsg)

/-- Structural well-formedness of a history with respect to tool
messages: scanning left to right, a tool-role message is legal only
while consuming, in order, the declared calls of the most recent
assistant message, with nothing but tool messages of the same batch in
between, and its name field must match the declared call at its batch
position. -/
def wfAux : List ToolCall → List Msg → Bool
  | _, [] => true
  | pending, m :: rest =>
    match m.role with
    | .tool =>
      (match pending with
       | tc :: tcs => m.name == some tc.name && wfAux tcs rest
       | [] => false)
    | .assistant => wfAux m.tool_calls rest
    | _ => wfAux [] rest

def wfHistory (h : List Msg) : Bool := wfAux [] h

/-- The id-matching requirement of claim C9, as stated: every tool-role
message must carry, in its tool_call_id field, an id that occurs among
the ids declared in the tool_calls of the assistant message it follows
(tool messages of the same batch intervening). -/
def claimAux : List (Option String) → List Msg → Bool
  | _, [] => true
  | ids, m :: rest =>
    match m.role with
    | .tool => ids.contains m.tool_call_id && claimAux ids rest
    | .assistant => claimAux (m.tool_calls.map (fun tc => tc.id)) rest
    | _ => claimAux [] rest

def claimC9Pred (h : List Msg) : Bool := claimAux [] h

/-- A declared model tool call asking to put salt in the gray recipient
(a canonical instruction). -/
def execSaltCall : ToolCall :=
  { id := none, name := "execute_robot_command",
    args := .pdict (.dcons "language_instruction"
      (.pstr "Put salt in the gray recipient") .nil) }

/-- Oracle of model responses exercising the fallback branch: the first
response is empty (no content, no tool calls), the retry carries the
robot command, the next response is final text. -/
def c1Oracle : Nat → Resp
  | 0 => { status := 200, content := "", tool_calls := [] }
  | 1 => { status := 200, content := "", tool_calls := [execSaltCall] }
  | _ => { status := 200, content := "done", tool_calls := [] }

/-- Oracle exercising the execution guard in the primary branch: the
first response declares the robot command (with the plan not yet
approved), the second is the validator verdict consumed by the guard's
review_plan call, the third is final text. -/
def c9Oracle : Nat → Resp
  | 0 => { status := 200, content := "", tool_calls := [execSaltCall] }
  | 1 => { status := 200,
           content := "\x7b\"approved\": false, \"reasons\": []\x7d",
           tool_calls := [] }
  | _ => { status := 200, content := "done", tool_calls := [] }

/-- Oracle whose responses never carry content or tool calls. -/
def emptyOracle : Nat → Resp :=
  fun _ => { status := 200, content := "", tool_calls := [] }

/-- Oracle whose responses always carry a tool call, so the loop never
reaches a terminal answer by itself. -/
def busyOracle : Nat → Resp :=
  fun _ =>
    { status := 200, content := "",
      tool_calls := [{ id := none, name := "get_current_plan",
                       args := .pdict .nil }] }

/-- A sequence of update_kitchen_state calls threading the bot state,
collecting every returned outcome. -/
def runUpdates : BotState → List PyVal → BotState × List Outcome
  | st, [] => (st, [])
  | st, v :: rest =>
    let r := update_kitchen_state st v
    let rr := runUpdates r.1 rest
    (rr.1, r.2 :: rr.2)

/-- The map after each prefix of a sequence of partial updates. -/
def prefixMerges : List (String × PyVal) → List (List (String × PyVal)) →
    List (List (String × PyVal))
  | _, [] => []
  | d, p :: ps => dictUpdate d p :: prefixMerges (dictUpdate d p) ps

/-- Python isinstance(v, dict). -/
def isMapping : PyVal → Bool
  | .pdict _ => true
  | _ => false

/-- Messages that never participate in the tool-result pattern: user
and system messages, and assistant messages declaring no tool calls. -/
def TextMsg (m : Msg) : Prop :=
  m.role = .user ∨ m.role = .system ∨ (m.role = .assistant ∧ m.tool_calls = [])

/-- A history is transparent when prepending it before any
continuation leaves the well-formedness scan unchanged: every declared
tool call inside it has been consumed by its own batch. -/
def Transparent (h : List Msg) : Prop :=
  ∀ k, wfAux [] (h ++ k) = wfAux [] k

/-- A run of tool messages realizes a declared call list positionally:
same length, every message tool-role with the declared name. -/
def matchesCalls : List ToolCall → List Msg → Prop
  | [], [] => True
  | tc :: tcs, m :: ms =>
    m.role = .tool ∧ m.name = some tc.name ∧ matchesCalls tcs ms
  | _, _ => False

/-- State with a one-task plan, for the C3 counterexample. -/
def c3St : BotState :=
  { initBot with task_list := [⟨1, .pstr "Put salt in the gray recipient", false⟩] }

/-- Verdict object with approved false and an empty revised_plan list
present, for the C3 counterexample. -/
def c3Kvs : List (String × PyVal) :=
  [("approved", .pbool false), ("revised_plan", .plist .nil)]

/-- State with a one-task plan, for the C3 witness. -/
def c3WSt : BotState :=
  { initBot with task_list := [⟨1, .pstr "Put salt in the gray recipient", false⟩] }

/-- The rejection-with-revision verdict of the spec scenario in section
8, for the C3 witness. -/
def c3WKvs : List (String × PyVal) :=
  [ ("approved", .pbool false),
    ("reasons", .plist (.cons (.pstr "lid still on") .nil)),
    ("revised_plan", .plist (.cons
      (.pdict (.dcons "title" (.pstr "Take off the lid") .nil))
      (.cons (.pdict (.dcons "title" (.pstr "Put salt in the gray recipient") .nil))
        .nil))) ]

/-- Validator reply text containing two separate JSON objects wrapped
in prose, for the C5 counterexample. -/
def c5Content : String := "\x7b\"a\": 1\x7d x \x7b\"b\": 2\x7d"

/-! Supporting lemmas. -/

lemma exec_noncanon_eq (s : String) (st : BotState) (sendRes : SendRes)
    (h : canonicalCommands.contains s = false) :
    execute_robot_command sendRes st (.pstr s)
      = ({ st with current_task := some (.pstr s) },
         { status := "error"
           error := some "Non-canonical command. Use an exact phrase from the canonical list."
           instruction := some (.pstr s)
           allowed := some sortedCanonical },
         false) := by
  simp only [execute_robot_command, h]
  rfl

lemma markFirst_idem (l : List PlanTask) (tid : PyVal) :
    markFirst (markFirst l tid) tid = markFirst l tid := by
  induction l with
  | nil => rfl
  | cons t ts ih =>
    cases h : pyEq (.pint (t.id : Int)) tid with
    | true => simp [markFirst, h]
    | false => simp [markFirst, h, ih]

lemma markFirst_absent (l : List PlanTask) (tid : PyVal)
    (h : ∀ t ∈ l, pyEq (.pint (t.id : Int)) tid = false) :
    markFirst l tid = l := by
  induction l with
  | nil => rfl
  | cons t ts ih =>
    have h1 := h t (by simp)
    simp [markFirst, h1]
    exact ih (fun t2 ht2 => h t2 (by simp [ht2]))

lemma formatTasks_ids (ts : List PyVal) :
    ∀ i, (formatTasks i ts).map (fun t => t.id) = List.range' (i + 1) ts.length := by
  induction ts with
  | nil => intro i; rfl
  | cons t rest ih =>
    intro i
    simp [formatTasks, List.range', ih (i + 1)]

lemma formatTasks_titles (ts : List PyVal) :
    ∀ i, (formatTasks i ts).map (fun t => t.title) = ts.map extractTitle := by
  induction ts with
  | nil => intro i; rfl
  | cons t rest ih => intro i; simp [formatTasks, ih (i + 1)]

lemma formatTasks_done (ts : List PyVal) :
    ∀ i, (formatTasks i ts).all (fun t => !t.done) = true := by
  induction ts with
  | nil => intro i; rfl
  | cons t rest ih => intro i; simp [formatTasks, ih (i + 1)]

lemma ofList_toList (l : List (String × PyVal)) :
    (PyDict.ofList l).toList = l := by
  induction l with
  | nil => rfl
  | cons kv rest ih =>
    cases kv
    simp [PyDict.ofList, PyDict.toList, ih]

lemma dictGet_append_single (d : List (String × PyVal)) (k k2 : String) (v : PyVal)
    (h : (k2 == k) = false) : dictGet (d ++ [(k2, v)]) k = dictGet d k := by
  induction d with
  | nil => simp [dictGet, h]
  | cons kv rest ih => cases kv with | mk k1 v1 => simp [dictGet, ih]

lemma dictGet_dictReplace_ne (d : List (String × PyVal)) (k k2 : String) (v : PyVal)
    (h : (k2 == k) = false) : dictGet (dictReplace d k2 v) k = dictGet d k := by
  induction d with
  | nil => rfl
  | cons kv rest ih =>
    cases kv with
    | mk k1 v1 =>
      cases h1 : (k1 == k2) with
      | true =>
        have hk1 : k1 = k2 := eq_of_beq h1
        subst hk1
        simp [dictReplace, dictGet, h, ih]
      | false =>
        simp [dictReplace, dictGet, h1, ih]

lemma dictGet_dictSet_ne (d : List (String × PyVal)) (k k2 : String) (v : PyVal)
    (h : (k2 == k) = false) : dictGet (dictSet d k2 v) k = dictGet d k := by
  unfold dictSet
  split
  · exact dictGet_dictReplace_ne d k k2 v h
  · exact dictGet_append_single d k k2 v h

lemma dictGet_dictUpdate_notin (upd : List (String × PyVal)) :
    ∀ d k, (∀ kv ∈ upd, (kv.1 == k) = false) →
      dictGet (dictUpdate d upd) k = dictGet d k := by
  induction upd with
  | nil => intro d k _; rfl
  | cons kv rest ih =>
    intro d k h
    cases kv with
    | mk k2 v =>
      have h2 : (k2 == k) = false := h (k2, v) (by simp)
      show dictGet (dictUpdate (dictSet d k2 v) rest) k = dictGet d k
      rw [ih (dictSet d k2 v) k (fun kv2 hkv2 => h kv2 (by simp [hkv2]))]
      exact dictGet_dictSet_ne d k k2 v h2

lemma foldl_dictUpdate_notin (ps : List (List (String × PyVal))) :
    ∀ d k, (∀ p ∈ ps, ∀ kv ∈ p, (kv.1 == k) = false) →
      dictGet (ps.foldl dictUpdate d) k = dictGet d k := by
  induction ps with
  | nil => intro d k _; rfl
  | cons p rest ih =>
    intro d k hk
    show dictGet (rest.foldl dictUpdate (dictUpdate d p)) k = _
    rw [ih (dictUpdate d p) k (fun p2 hp2 => hk p2 (by simp [hp2]))]
    exact dictGet_dictUpdate_notin p d k (hk p (by simp))

lemma runUpdates_dicts (ps : List (List (String × PyVal))) :
    ∀ st : BotState,
      (runUpdates st (ps.map (fun p => PyVal.pdict (PyDict.ofList p)))).1
        = { st with kitchen_state := ps.foldl dictUpdate st.kitchen_state }
      ∧ (runUpdates st (ps.map (fun p => PyVal.pdict (PyDict.ofList p)))).2
        = (prefixMerges st.kitchen_state ps).map
            (fun m => { status := "success", updated_state := some m }) := by
  induction ps with
  | nil => intro st; exact ⟨rfl, rfl⟩
  | cons p rest ih =>
    intro st
    have step : update_kitchen_state st (PyVal.pdict (PyDict.ofList p))
        = ({ st with kitchen_state := dictUpdate st.kitchen_state p },
           { status := "success",
             updated_state := some (dictUpdate st.kitchen_state p) }) := by
      simp [update_kitchen_state, ofList_toList]
    constructor
    · show (runUpdates st (PyVal.pdict (PyDict.ofList p)
          :: rest.map (fun p => PyVal.pdict (PyDict.ofList p)))).1 = _
      simp only [runUpdates, step]
      rw [(ih { st with kitchen_state := dictUpdate st.kitchen_state p }).1]
      rfl
    · show (runUpdates st (PyVal.pdict (PyDict.ofList p)
          :: rest.map (fun p => PyVal.pdict (PyDict.ofList p)))).2 = _
      simp only [runUpdates, step]
      rw [(ih { st with kitchen_state := dictUpdate st.kitchen_state p }).2]
      rfl

lemma reviewTitle_eq (v : PyVal) : reviewTitle v = extractTitle v := by
  cases v <;> rfl

lemma formatRevised_eq (ts : List PyVal) :
    ∀ i, formatRevised i ts = formatTasks i ts := by
  induction ts with
  | nil => intro i; rfl
  | cons t rest ih =>
    intro i
    simp [formatRevised, formatTasks, reviewTitle_eq, ih (i + 1)]

lemma loopStep_steps_le (oracle : Nat → Resp) (sendRes : SendRes) :
    ∀ fuel ls, (loopStep oracle sendRes fuel ls).steps ≤ fuel := by
  intro fuel
  induction fuel with
  | zero => intro ls; exact Nat.le_refl 0
  | succ n ih =>
    intro ls
    simp only [loopStep]
    split
    · split
      · exact Nat.succ_le_succ (ih _)
      · split
        · split
          · split
            · exact Nat.succ_le_succ (ih _)
            · split
              · exact Nat.succ_le_succ (Nat.zero_le n)
              · exact Nat.succ_le_succ (Nat.zero_le n)
          · exact Nat.succ_le_succ (Nat.zero_le n)
        · exact Nat.succ_le_succ (Nat.zero_le n)
    · exact Nat.succ_le_succ (Nat.zero_le n)

lemma wfAux_cons_text (m : Msg) (hm : TextMsg m) (k : List Msg) :
    wfAux [] (m :: k) = wfAux [] k := by
  rcases hm with h | h | hh
  · simp [wfAux, h]
  · simp [wfAux, h]
  · simp [wfAux, hh.1, hh.2]

lemma transparent_append_text (h : List Msg) (m : Msg) (hT : Transparent h)
    (hm : TextMsg m) : Transparent (h ++ [m]) := by
  intro k
  rw [List.append_assoc, hT ([m] ++ k)]
  exact wfAux_cons_text m hm k

lemma transparent_append_texts (msgs : List Msg) :
    ∀ h, Transparent h → (∀ m ∈ msgs, TextMsg m) → Transparent (h ++ msgs) := by
  induction msgs with
  | nil =>
    intro h hT _
    simpa using hT
  | cons m rest ih =>
    intro h hT hall
    have h1 : Transparent (h ++ [m]) :=
      transparent_append_text h m hT (hall m (by simp))
    have h2 := ih (h ++ [m]) h1 (fun m2 hm2 => hall m2 (by simp [hm2]))
    simpa [List.append_assoc] using h2

lemma wfAux_consume (tcs : List ToolCall) :
    ∀ (tms : List Msg), matchesCalls tcs tms →
      ∀ k, wfAux tcs (tms ++ k) = wfAux [] k := by
  induction tcs with
  | nil =>
    intro tms hm k
    cases tms with
    | nil => rfl
    | cons m ms => exact absurd hm (by simp [matchesCalls])
  | cons tc tcs ih =>
    intro tms hm k
    cases tms with
    | nil => exact absurd hm (by simp [matchesCalls])
    | cons m ms =>
      obtain ⟨h1, h2, h3⟩ := hm
      show wfAux (tc :: tcs) (m :: (ms ++ k)) = _
      simp [wfAux, h1, h2, ih ms h3 k]

lemma transparent_append_block (h : List Msg) (a : Msg) (tms : List Msg)
    (ha : a.role = .assistant) (hm : matchesCalls a.tool_calls tms)
    (hT : Transparent h) : Transparent (h ++ (a :: tms)) := by
  intro k
  rw [List.append_assoc, hT ((a :: tms) ++ k)]
  show wfAux [] (a :: (tms ++ k)) = _
  simp only [wfAux, ha]
  exact wfAux_consume a.tool_calls tms hm k

lemma matches_toolMsgs (tcs : List ToolCall) :
    ∀ (outs : List Outcome) (i : Nat), outs.length = tcs.length →
      matchesCalls tcs (toolMsgs i tcs outs) := by
  induction tcs with
  | nil =>
    intro outs i h
    cases outs with
    | nil => trivial
    | cons o os => simp at h
  | cons tc tcs ih =>
    intro outs i h
    cases outs with
    | nil => simp at h
    | cons o os => exact ⟨rfl, rfl, ih os (i + 1) (by simpa using h)⟩

lemma approvalMsgs_text (a : Bool) (ts : List PlanTask) :
    ∀ m ∈ approvalMsgs a ts, TextMsg m := by
  intro m hm
  unfold approvalMsgs at hm
  split at hm
  · rcases (by simpa using hm : m = _ ∨ m = _) with h | h <;> subst h
    · exact Or.inr (Or.inr ⟨rfl, rfl⟩)
    · exact Or.inr (Or.inl rfl)
  · simp at hm

lemma applyVerdict_msgs_text (st : BotState) (kvs : List (String × PyVal)) :
    ∀ m ∈ (applyVerdict st kvs).2.2, TextMsg m :=
  fun m hm => approvalMsgs_text _ _ m hm

lemma review_plan_content_msgs_text (st : BotState) (content : String) :
    ∀ m ∈ (review_plan_content st content).2.2, TextMsg m := by
  intro m hm
  unfold review_plan_content at hm
  cases hp : reviewParseContent content with
  | error raw => rw [hp] at hm; simp at hm
  | ok v =>
    rw [hp] at hm
    cases v with
    | pdict d => exact applyVerdict_msgs_text st d.toList m hm
    | pstr s => simp at hm
    | pint n => simp at hm
    | pbool b => simp at hm
    | pnone => simp at hm
    | plist l => simp at hm

lemma review_plan_call_transparent (oracle : Nat → Resp) (ls : LoopState)
    (hT : Transparent ls.history) :
    Transparent (review_plan_call oracle ls).1.history := by
  simp only [review_plan_call]
  split
  · exact transparent_append_texts _ _ hT (review_plan_content_msgs_text _ _)
  · exact hT

lemma callHandler_transparent (oracle : Nat → Resp) (sendRes : SendRes)
    (ls : LoopState) (fname : String) (args : PyVal)
    (hT : Transparent ls.history) :
    Transparent (callHandler oracle sendRes ls fname args).1.history := by
  simp only [callHandler]
  split
  · split
    · split
      · exact review_plan_call_transparent oracle ls hT
      · exact hT
    · exact hT
  · split
    · split
      · split
        · exact hT
        · exact hT
      · split
        · split
          · exact hT
          · exact hT
        · split
          · split
            · exact hT
            · exact hT
          · split
            · split
              · exact hT
              · exact hT
            · split
              · split
                · exact hT
                · exact hT
              · exact hT
    · exact hT

lemma guard_block_matches (o : Outcome) :
    matchesCalls
      ([{ id := none, name := "review_plan", args := PyVal.pdict .nil }] :
        List ToolCall)
      [{ role := .tool, content := serializeOutcome o,
         tool_call_id := some "call_review_autoguard",
         name := some "review_plan" }] :=
  ⟨rfl, rfl, trivial⟩

lemma processCalls_transparent (oracle : Nat → Resp) (sendRes : SendRes) :
    ∀ (calls : List ToolCall) (ls : LoopState), Transparent ls.history →
      Transparent (processCalls oracle sendRes ls calls).1.history := by
  intro calls
  induction calls with
  | nil => intro ls hT; exact hT
  | cons tc rest ih =>
    intro ls hT
    simp only [processCalls]
    apply ih
    split
    · split
      · exact transparent_append_block _ _ _ rfl (guard_block_matches _)
          (review_plan_call_transparent oracle ls hT)
      · exact callHandler_transparent oracle sendRes ls _ _ hT
    · exact hT

lemma processCallsFallback_transparent (oracle : Nat → Resp) (sendRes : SendRes) :
    ∀ (calls : List ToolCall) (ls : LoopState), Transparent ls.history →
      Transparent (processCallsFallback oracle sendRes ls calls).1.history := by
  intro calls
  induction calls with
  | nil => intro ls hT; exact hT
  | cons tc rest ih =>
    intro ls hT
    simp only [processCallsFallback]
    apply ih
    split
    · exact callHandler_transparent oracle sendRes ls _ _ hT
    · exact hT

lemma processCalls_length (oracle : Nat → Resp) (sendRes : SendRes) :
    ∀ (calls : List ToolCall) (ls : LoopState),
      (processCalls oracle sendRes ls calls).2.length = calls.length := by
  intro calls
  induction calls with
  | nil => intro ls; rfl
  | cons tc rest ih =>
    intro ls
    simp only [processCalls, List.length_cons]
    rw [ih]

lemma processCallsFallback_length (oracle : Nat → Resp) (sendRes : SendRes) :
    ∀ (calls : List ToolCall) (ls : LoopState),
      (processCallsFallback oracle sendRes ls calls).2.length = calls.length := by
  intro calls
  induction calls with
  | nil => intro ls; rfl
  | cons tc rest ih =>
    intro ls
    simp only [processCallsFallback, List.length_cons]
    rw [ih]

lemma loopStep_transparent (oracle : Nat → Resp) (sendRes : SendRes) :
    ∀ (fuel : Nat) (ls : LoopState), Transparent ls.history →
      Transparent (loopStep oracle sendRes fuel ls).final.history := by
  intro fuel
  induction fuel with
  | zero => intro ls hT; exact hT
  | succ n ih =>
    intro ls hT
    simp only [loopStep]
    split
    · split
      · apply ih
        exact transparent_append_block _ _ _ rfl
          (matches_toolMsgs _ _ 0 (processCalls_length oracle sendRes _ _))
          (processCalls_transparent oracle sendRes _ _ hT)
      · split
        · split
          · split
            · apply ih
              exact transparent_append_block _ _ _ rfl
                (matches_toolMsgs _ _ 0 (processCallsFallback_length oracle sendRes _ _))
                (processCallsFallback_transparent oracle sendRes _ _ hT)
            · split
              · exact hT
              · exact transparent_append_text _ _ hT (Or.inr (Or.inr ⟨rfl, rfl⟩))
          · exact hT
        · exact transparent_append_text _ _ hT (Or.inr (Or.inr ⟨rfl, rfl⟩))
    · exact hT

/-! Claim theorems. -/

/-- Claim C1 (code bug witnessed at its failing input): the claim says
that for every tool-call sequence processed by the control loop, an
execute_robot_command invocation with a canonical instruction while the
plan-approved flag is false triggers a Review Gate call before any
actuator dispatch.  The fallback dispatch branch of _call_gpt_oss
(lines 784-831) omits the guard that the primary branch has: on the run
below, the first model response is empty, the retry declares the
canonical salt command while plan_approved is false, and the trace
shows send() invoked with no review event ever occurring. -/
theorem c1_fallback_dispatch_bypasses_review :
    canonicalCommands.contains "Put salt in the gray recipient" = true
    ∧ (initLoop "add salt").bot.plan_approved = false
    ∧ (runLoop c1Oracle (.ok none) "add salt").final.trace
        = [Event.send (.pstr "Put salt in the gray recipient")]
    ∧ ((runLoop c1Oracle (.ok none) "add salt").final.trace.contains Event.review)
        = false
    ∧ (runLoop c1Oracle (.ok none) "add salt").answer = "done" :=
  ⟨rfl, rfl, rfl, rfl, rfl⟩

/-- Claim C2: every instruction string not byte-identical to a member
of the canonical command set is rejected by execute_robot_command with
a status error whose message begins with Non-canonical command, whose
allowed field is the full sorted canonical list, and send() is never
invoked for that call. -/
theorem c2_noncanonical_rejected_without_send (s : String) (st : BotState)
    (sendRes : SendRes) (h : canonicalCommands.contains s = false) :
    ((execute_robot_command sendRes st (.pstr s)).2.1.status = "error")
    ∧ ((execute_robot_command sendRes st (.pstr s)).2.1.error
        = some "Non-canonical command. Use an exact phrase from the canonical list.")
    ∧ strBeginsWith "Non-canonical command"
        "Non-canonical command. Use an exact phrase from the canonical list." = true
    ∧ ((execute_robot_command sendRes st (.pstr s)).2.1.allowed = some sortedCanonical)
    ∧ sortedCanonical =
        [ "Close the left cabinet door",
          "Open the left cabinet door",
          "Pick up the green pineapple from the left cabinet and place it in the gray recipient",
          "Pick up the lid from the counter and put it on the gray recipient",
          "Put salt in the gray recipient",
          "Take off the lid from the gray recipient and place it on the counter" ]
    ∧ isSortedAsc sortedCanonical = true
    ∧ (canonicalCommands.all (fun c => sortedCanonical.contains c)
        && sortedCanonical.all (fun c => canonicalCommands.contains c)) = true
    ∧ ((execute_robot_command sendRes st (.pstr s)).2.2 = false) := by
  rw [exec_noncanon_eq s st sendRes h]
  exact ⟨rfl, rfl, by decide, rfl, by decide, by decide, by decide, rfl⟩

/-- Witness for C2 at the concrete non-canonical instruction
"open the door". -/
theorem c2_noncanonical_witness :
    canonicalCommands.contains "open the door" = false
    ∧ ((execute_robot_command (.ok none) initBot (.pstr "open the door")).2.1.status
        = "error")
    ∧ ((execute_robot_command (.ok none) initBot (.pstr "open the door")).2.2
        = false) :=
  ⟨by decide,
    (c2_noncanonical_rejected_without_send "open the door" initBot (.ok none)
      (by decide)).1,
    (c2_noncanonical_rejected_without_send "open the door" initBot (.ok none)
      (by decide)).2.2.2.2.2.2.2⟩

/-- Counterexample for claim C3 as stated: the claim requires the
revision to replace the task list exactly when approved is false and a
revised_plan list is present.  With approved false and the present but
empty list revised_plan = [], the code performs no replacement (the
Python truthiness test on the list rejects the empty list), so the
existing non-empty task list survives where the claim predicts an
empty plan. -/
theorem c3_empty_revision_counterexample :
    truthy (pyGet c3Kvs "approved") = false
    ∧ pyGet c3Kvs "revised_plan" = PyVal.plist PyList.nil
    ∧ (applyVerdict c3St c3Kvs).1.task_list = c3St.task_list
    ∧ c3St.task_list ≠ [] :=
  ⟨rfl, rfl, rfl, by decide⟩

/-- Claim C3 as amended: the revised plan replaces the task list (with
titles re-extracted by the same priority rule as plan creation, fresh
ids from 1, done flags false) exactly when approved is false and a
NON-EMPTY revised_plan list is present; when approved is true the task
list is untouched even if a revision is present; and after the call
the plan-approved flag equals the coerced boolean of approved. -/
theorem c3_verdict_application (st : BotState) (kvs : List (String × PyVal)) :
    ((applyVerdict st kvs).1.plan_approved = truthy (pyGet kvs "approved"))
    ∧ (truthy (pyGet kvs "approved") = true →
        (applyVerdict st kvs).1.task_list = st.task_list)
    ∧ (∀ l : PyList, pyGet kvs "revised_plan" = PyVal.plist l → l.toList ≠ [] →
        truthy (pyGet kvs "approved") = false →
        (applyVerdict st kvs).1.task_list = formatTasks 0 l.toList)
    ∧ ((applyVerdict st kvs).1.task_list ≠ st.task_list →
        ∃ l : PyList, pyGet kvs "revised_plan" = PyVal.plist l ∧ l.toList ≠ []
          ∧ truthy (pyGet kvs "approved") = false) := by
  refine ⟨rfl, ?_, ?_, ?_⟩
  · intro happ
    simp [applyVerdict, happ]
  · intro l hrev hne happ
    cases hl : l.toList with
    | nil => exact absurd hl hne
    | cons x xs =>
      simp [applyVerdict, hrev, happ, hl, formatRevised_eq]
  · intro hne
    cases hrev : pyGet kvs "revised_plan" with
    | plist l =>
      cases hl : l.toList with
      | nil => exact absurd (by simp [applyVerdict, hrev, hl]) hne
      | cons x xs =>
        cases happ : truthy (pyGet kvs "approved") with
        | true => exact absurd (by simp [applyVerdict, hrev, happ]) hne
        | false => exact ⟨l, rfl, by simp [hl], rfl⟩
    | pstr s => exact absurd (by simp [applyVerdict, hrev]) hne
    | pint n => exact absurd (by simp [applyVerdict, hrev]) hne
    | pbool b => exact absurd (by simp [applyVerdict, hrev]) hne
    | pnone => exact absurd (by simp [applyVerdict, hrev]) hne
    | pdict d => exact absurd (by simp [applyVerdict, hrev]) hne

/-- Witness for C3 at the rejection-with-revision scenario of the spec:
the two revised titles become the new task list with ids 1 and 2 and
done false, and the flag records the rejection. -/
theorem c3_verdict_application_witness :
    (applyVerdict c3WSt c3WKvs).1.task_list
      = [⟨1, .pstr "Take off the lid", false⟩,
         ⟨2, .pstr "Put salt in the gray recipient", false⟩]
    ∧ (applyVerdict c3WSt c3WKvs).1.plan_approved = false := by
  have h := c3_verdict_application c3WSt c3WKvs
  refine ⟨?_, ?_⟩
  · rw [h.2.2.1 (.cons (.pdict (.dcons "title" (.pstr "Take off the lid") .nil))
      (.cons (.pdict (.dcons "title" (.pstr "Put salt in the gray recipient") .nil))
        .nil)) rfl (by decide) rfl]
    rfl
  · rw [h.1]
    rfl

/-- Claim C4: a sequence of update_kitchen_state calls with mapping
arguments yields the left-fold dictionary merge of the initial state
with the partials in call order, each call returns the full resulting
map with status success, keys never mentioned in any partial keep
their prior value (and are never removed), and a non-mapping argument
is rejected with status error leaving the state unchanged. -/
theorem c4_update_merge_semantics (st : BotState)
    (ps : List (List (String × PyVal))) :
    ((runUpdates st (ps.map (fun p => PyVal.pdict (PyDict.ofList p)))).1
      = { st with kitchen_state := ps.foldl dictUpdate st.kitchen_state })
    ∧ ((runUpdates st (ps.map (fun p => PyVal.pdict (PyDict.ofList p)))).2
      = (prefixMerges st.kitchen_state ps).map
          (fun m => { status := "success", updated_state := some m }))
    ∧ (∀ k, (∀ p ∈ ps, ∀ kv ∈ p, (kv.1 == k) = false) →
        dictGet (ps.foldl dictUpdate st.kitchen_state) k
          = dictGet st.kitchen_state k)
    ∧ (∀ (st2 : BotState) (v : PyVal), isMapping v = false →
        (update_kitchen_state st2 v).1 = st2
        ∧ (update_kitchen_state st2 v).2.status = "error") := by
  refine ⟨(runUpdates_dicts ps st).1, (runUpdates_dicts ps st).2, ?_, ?_⟩
  · intro k hk
    exact foldl_dictUpdate_notin ps st.kitchen_state k hk
  · intro st2 v hv
    cases v <;> first
      | exact ⟨rfl, rfl⟩
      | exact absurd hv (by simp [isMapping])

/-- Witness for C4: two concrete partial updates leave the unmentioned
lid key unchanged, and a non-mapping argument leaves the state as it
was. -/
theorem c4_update_merge_witness :
    dictGet (([[("cabinet_open", PyVal.pbool true)],
        [("salt_added", PyVal.pbool true)]]).foldl dictUpdate
        initBot.kitchen_state) "lid_on_gray_recipient"
      = dictGet initBot.kitchen_state "lid_on_gray_recipient"
    ∧ (update_kitchen_state initBot (.pint 3)).1 = initBot := by
  have h := c4_update_merge_semantics initBot
    [[("cabinet_open", PyVal.pbool true)], [("salt_added", PyVal.pbool true)]]
  exact ⟨h.2.2.1 "lid_on_gray_recipient" (by decide),
    (h.2.2.2 initBot (.pint 3) (by decide)).1⟩

/-- Counterexample for claim C5 as stated: the claim says the fallback
locates and parses the first balanced brace substring.  On content
holding two JSON objects wrapped in prose, the first balanced substring
parses successfully, yet review_plan reports a status error, because
the code actually slices from the first opening brace to the last
closing brace, which is not valid JSON here. -/
theorem c5_first_balanced_counterexample :
    (review_plan_content initBot c5Content).2.1.status = "error"
    ∧ jsonLoads c5Content = none
    ∧ pyFallbackSlice c5Content = some c5Content
    ∧ specFirstBalanced c5Content = some "\x7b\"a\": 1\x7d"
    ∧ (specFirstBalanced c5Content).bind jsonLoads
        = some (.pdict (.dcons "a" (.pint 1) .nil)) :=
  ⟨rfl, rfl, rfl, rfl, rfl⟩

/-- Claim C5 as amended: the fallback parses the substring from the
first opening brace to the last closing brace (when the former strictly
precedes the latter); when both the direct parse and this fallback
fail, review_plan returns status error carrying the raw response text,
and neither the plan-approved flag nor the task list changes, so a
parse failure is never silently treated as approved. -/
theorem c5_parse_failure_reports_error (st : BotState) (content : String)
    (h1 : jsonLoads content = none)
    (h2 : ∀ sub, pyFallbackSlice content = some sub → jsonLoads sub = none) :
    (review_plan_content st content).1 = st
    ∧ (review_plan_content st content).2.1.status = "error"
    ∧ (review_plan_content st content).2.1.raw = some content
    ∧ (review_plan_content st content).2.2 = [] := by
  cases hs : pyFallbackSlice content with
  | none => simp [review_plan_content, reviewParseContent, h1, hs]
  | some sub => simp [review_plan_content, reviewParseContent, h1, hs, h2 sub hs]

/-- Witness for C5 at content with no braces at all: both parses fail,
the raw text is surfaced and the state is untouched. -/
theorem c5_parse_failure_witness :
    jsonLoads "no json here" = none
    ∧ pyFallbackSlice "no json here" = none
    ∧ (review_plan_content initBot "no json here").1 = initBot
    ∧ (review_plan_content initBot "no json here").2.1.raw = some "no json here" := by
  have h := c5_parse_failure_reports_error initBot "no json here" rfl
    (fun sub hsub => Option.noConfusion hsub)
  exact ⟨rfl, rfl, h.1, h.2.2.1⟩

/-- Claim C6: create_plan on the round-trip input of the spec yields
exactly the two expected tasks; in general the task list is replaced,
for a list input, by tasks whose titles come from the fixed
priority-order extraction (extractTitle), whose ids are sequential and
1-based in input order, and whose done flags are all false. -/
theorem c6_create_plan_round_trip_and_shape :
    ((create_plan initBot (.plist (.cons
        (.pdict (.dcons "title" (.pstr "Open the left cabinet door") .nil))
        (.cons (.pstr "Put salt in the gray recipient") .nil)))).1.task_list
      = [⟨1, .pstr "Open the left cabinet door", false⟩,
         ⟨2, .pstr "Put salt in the gray recipient", false⟩])
    ∧ ((create_plan initBot (.plist (.cons
        (.pdict (.dcons "title" (.pstr "Open the left cabinet door") .nil))
        (.cons (.pstr "Put salt in the gray recipient") .nil)))).2.status
      = "success")
    ∧ (∀ (st : BotState) (ts : PyList),
        (create_plan st (.plist ts)).1.task_list = formatTasks 0 ts.toList)
    ∧ (∀ ts : List PyVal,
        (formatTasks 0 ts).map (fun t => t.id) = List.range' 1 ts.length
        ∧ (formatTasks 0 ts).map (fun t => t.title) = ts.map extractTitle
        ∧ (formatTasks 0 ts).all (fun t => !t.done) = true) :=
  ⟨rfl, rfl, fun _ _ => rfl,
    fun ts => ⟨formatTasks_ids ts 0, formatTasks_titles ts 0, formatTasks_done ts 0⟩⟩

/-- Claim C7: mark_task_complete is idempotent on the state for every
task list and every id, always returns status success, and an id
absent from the task list leaves the state unchanged (a no-op, not an
error). -/
theorem c7_mark_complete_idempotent_and_absent_noop (st : BotState)
    (tid : PyVal) :
    (mark_task_complete (mark_task_complete st tid).1 tid).1
        = (mark_task_complete st tid).1
    ∧ (mark_task_complete st tid).2.status = "success"
    ∧ ((∀ t ∈ st.task_list, pyEq (.pint (t.id : Int)) tid = false) →
        (mark_task_complete st tid).1 = st) := by
  refine ⟨?_, rfl, ?_⟩
  · show ({ st with
        task_list := markFirst (markFirst st.task_list tid) tid } : BotState)
      = { st with task_list := markFirst st.task_list tid }
    rw [markFirst_idem]
  · intro h
    show ({ st with task_list := markFirst st.task_list tid } : BotState) = st
    rw [markFirst_absent st.task_list tid h]

/-- Witness for C7 at a one-task list and the absent id 2. -/
theorem c7_mark_complete_witness :
    (∀ t ∈ ({ initBot with
        task_list := [⟨1, .pstr "Open the left cabinet door", false⟩] } :
          BotState).task_list,
      pyEq (.pint (t.id : Int)) (.pint 2) = false)
    ∧ (mark_task_complete
        { initBot with
          task_list := [⟨1, .pstr "Open the left cabinet door", false⟩] }
        (.pint 2)).1
      = { initBot with
          task_list := [⟨1, .pstr "Open the left cabinet door", false⟩] } :=
  ⟨by decide,
    (c7_mark_complete_idempotent_and_absent_noop
      { initBot with task_list := [⟨1, .pstr "Open the left cabinet door", false⟩] }
      (.pint 2)).2.2 (by decide)⟩

/-- Claim C8: the control loop never executes more than 50 iterations
for any oracle of model responses; a run whose first response and
single retry both carry neither text nor tool calls terminates after
one iteration with the fixed fallback string; and a run that always
receives tool calls stops at the step bound with the
maximum-steps-reached message instead of raising. -/
theorem c8_loop_bounded_and_terminates :
    (∀ (oracle : Nat → Resp) (sendRes : SendRes) (u : String),
      (runLoop oracle sendRes u).steps ≤ 50)
    ∧ (runLoop emptyOracle (.ok none) "hello").answer
        = "I didn\x27t understand that. Can you try again?"
    ∧ (runLoop emptyOracle (.ok none) "hello").steps = 1
    ∧ (runLoop busyOracle (.ok none) "hello").answer
        = "I executed many steps but reached the maximum step limit. If there\x27s more to do, please continue."
    ∧ (runLoop busyOracle (.ok none) "hello").steps = 50 :=
  ⟨fun oracle sendRes u => loopStep_steps_le oracle sendRes 50 (initLoop u),
    rfl, rfl, rfl, rfl⟩

/-- Counterexample for claim C9 as stated: the claim requires every
tool message to follow an assistant message whose declared tool_calls
include the id recorded in the tool message tool_call_id field.  On a
reachable run in which the execution guard fires, the synthetic tool
record carries the id call_review_autoguard while the synthetic
assistant record declares a review_plan call with no id at all, so the
id-inclusion predicate evaluates to false on the final history. -/
theorem c9_call_id_counterexample :
    claimC9Pred ((runLoop c9Oracle (.ok none) "add salt").final.history) = false
    ∧ ((runLoop c9Oracle (.ok none) "add salt").final.history.any
        (fun m => m.tool_call_id == some "call_review_autoguard")) = true :=
  ⟨rfl, rfl⟩

/-- Claim C9 as amended: in every reachable conversation history
produced by the control loop, each tool-role message belongs to a run
of tool messages that immediately follows the assistant message
declaring the batch, consuming the declared calls in order with
matching tool names; the tool_call_id values are synthesized
positionally (call_i, or call_review_autoguard for the guard record)
and need not occur in the declared calls. -/
theorem c9_tool_results_follow_declaring_assistant (oracle : Nat → Resp)
    (sendRes : SendRes) (u : String) :
    wfHistory ((runLoop oracle sendRes u).final.history) = true := by
  have hinit : Transparent (initLoop u).history := fun k => rfl
  have h := (loopStep_transparent oracle sendRes 50 (initLoop u) hinit) []
  rw [List.append_nil] at h
  exact h.trans rfl

/-- Claim C10: for every argument value, after create_plan returns the
plan-approved flag is false, even when the call fails its input
validation (the flag is cleared before the list check); shown also at
a concrete failing call starting from an approved state. -/
theorem c10_create_plan_always_revokes_approval :
    (∀ (st : BotState) (v : PyVal), ((create_plan st v).1).plan_approved = false)
    ∧ (create_plan { initBot with plan_approved := true } (.pint 0)).2.status
        = "error"
    ∧ ((create_plan { initBot with plan_approved := true } (.pint 0)).1).plan_approved
        = false := by
  refine ⟨?_, rfl, rfl⟩
  intro st v
  cases v <;> rfl

end KitchenBot
